import Mathlib

/-!
Shallow embedding of the computational core of the erg-screen-reader
repository (time-string parsing, power estimation, cumulative-to-incremental
distance reconciliation, average-power aggregation, sliding-window best
intervals, and raw-record ingestion), together with theorems settling the
specification claims about it.

Numeric values that Python represents as `float` are embedded as exact
rationals (`ℚ`); Python `int` becomes `ℤ`.  Fallible operations return
`Option`.  Strings are handled as their character lists so that every
operation is structurally recursive and evaluates inside the kernel.
-/

namespace ErgScreenReader

/-- Python `c in s` for a single character. -/
def containsChar (cs : List Char) (c : Char) : Bool :=
  cs.any (fun x => x == c)

/-- Python `s.split(sep)` for a one-character separator: splitting an
empty string gives `[""]`, and separators at the ends produce empty
pieces, exactly as in Python. -/
def splitOnChar (c : Char) : List Char → List (List Char)
  | [] => [[]]
  | x :: rest =>
    if x == c then [] :: splitOnChar c rest
    else
      match splitOnChar c rest with
      | [] => [[x]]
      | piece :: pieces => (x :: piece) :: pieces

/-- Python `s.replace(c, "")` for a one-character pattern. -/
def removeChar (c : Char) (cs : List Char) : List Char :=
  cs.filter (fun x => ¬ (x == c))

/-- Value of a decimal digit character, `none` for a non-digit. -/
def digitVal (c : Char) : Option ℕ :=
  if c.isDigit then some (c.toNat - 48) else none

/-- Value of a non-empty all-digit character list, `none` otherwise. -/
def digitsVal : List Char → Option ℕ
  | [] => none
  | cs =>
    cs.foldlM (fun acc c => (digitVal c).map (fun d => acc * 10 + d)) 0

/-- Model of Python `int(s)` restricted to the grammar exercised here:
an optional sign followed by a non-empty run of decimal digits; anything
else (in particular the empty string) raises, i.e. yields `none`. -/
def pyInt (s : List Char) : Option ℤ :=
  match s with
  | '-' :: rest => (digitsVal rest).map (fun n => -(n : ℤ))
  | '+' :: rest => (digitsVal rest).map (fun n => (n : ℤ))
  | cs => (digitsVal cs).map (fun n => (n : ℤ))

/-- Digits after a decimal point as a rational in `[0,1)`:
`fracVal "25" = 25/100`.  An empty list contributes `0`. -/
def fracVal (cs : List Char) : Option ℚ :=
  if cs.all Char.isDigit then
    some (((cs.foldl (fun acc c => acc * 10 + (c.toNat - 48)) 0 : ℕ) : ℚ)
      / (10 : ℚ) ^ cs.length)
  else none

/-- Model of Python `float(s)` restricted to the grammar exercised here:
an optional sign, then `digits`, `digits.digits`, `digits.` or `.digits`
(at least one digit overall, no exponent).  Anything else yields `none`. -/
def pyFloat (s : List Char) : Option ℚ :=
  let parse : List Char → Option ℚ := fun cs =>
    let ip := cs.takeWhile Char.isDigit
    let rest := cs.dropWhile Char.isDigit
    match rest with
    | [] => if ip.isEmpty then none else (digitsVal ip).map (fun n => (n : ℚ))
    | '.' :: fp =>
      if ip.isEmpty ∧ fp.isEmpty then none
      else
        (fracVal fp).map (fun f =>
          (ip.foldl (fun acc c => acc * 10 + (c.toNat - 48)) 0 : ℕ) + f)
    | _ => none
  match s with
  | '-' :: rest => (parse rest).map (fun q => -q)
  | '+' :: rest => parse rest
  | cs => parse cs

/-- The `Option`-valued body of `time_to_seconds`: `none` stands for a
Python `ValueError` escaping to the `except` clause. -/
def timeToSecondsAux (time_str : List Char) : Option ℚ := do
  let (main_part, decimal_seconds) ←
    (if containsChar time_str '.' then
      match splitOnChar '.' time_str with
      | [m, d] => (pyFloat ('0' :: '.' :: d)).map (fun q => (m, q))
      | _ => none
    else some (time_str, (0 : ℚ)) : Option (List Char × ℚ))
  if containsChar main_part ':' then
    let parts := splitOnChar ':' main_part
    if h : parts.length = 2 then
      let minutes ← pyInt (parts.get ⟨0, by omega⟩)
      let seconds ← pyInt (parts.get ⟨1, by omega⟩)
      some (((minutes * 60 + seconds : ℤ) : ℚ) + decimal_seconds)
    else
      pyFloat (removeChar ':' time_str)
  else
    (pyFloat main_part).map (fun q => q + decimal_seconds)

/-- `time_to_seconds` from `erg_screen_reader/models.py`.  Mirrors the
Python control flow: split on a dot (exactly two pieces, else the tuple
unpacking raises), parse the fractional part as `float("0." ++ d)`, then
split the main part on a colon; exactly two colon pieces go through
`int(minutes) * 60 + int(seconds) + decimal_seconds`, any other number of
colons falls back to `float(time_str.replace(":", ""))`, no colon at all
to `float(main_part) + decimal_seconds`.  Every raised `ValueError` is
caught and turned into the `0.0` fallback. -/
def time_to_seconds (time_str : String) : ℚ :=
  (timeToSecondsAux time_str.toList).getD 0

/-- Nearest integer to `q`, ties going to the even integer: the rounding
mode of Python `round`. -/
def roundHalfEven (q : ℚ) : ℤ :=
  let f := ⌊q⌋
  let r := q - (f : ℚ)
  if r < 1 / 2 then f
  else if 1 / 2 < r then f + 1
  else if 2 ∣ f then f else f + 1

/-- Python `round(x, 1)`: round to the nearest multiple of `1/10`,
ties to even. -/
def pyRound1 (q : ℚ) : ℚ :=
  ((roundHalfEven (q * 10) : ℤ) : ℚ) / 10

/-- `calculate_watts` from `erg_screen_reader/models.py`: guard the empty
pace string and non-positive distance, parse the pace, guard non-positive
time, then `round(2.80 / (time_seconds / distance) ** 3, 1)`. -/
def calculate_watts (pace_time : String) (distance : ℤ) : Option ℚ :=
  if pace_time = "" ∨ distance ≤ 0 then none
  else
    let time_seconds := time_to_seconds pace_time
    if time_seconds ≤ 0 then none
    else
      let pace : ℚ := time_seconds / (distance : ℚ)
      some (pyRound1 ((2.8 : ℚ) / pace ^ 3))

/-- `Summary` from `erg_screen_reader/models.py`. -/
structure Summary where
  total_distance : ℤ
  total_time : String
  average_split : String
  average_rate : ℤ
  average_hr : Option ℤ := none
  average_watts : Option ℚ := none
deriving Repr, DecidableEq

/-- `Split` from `erg_screen_reader/models.py`.  `split_distance` is the
cumulative distance reported by the source; `actual_split_distance` is the
private backing field set later by the reconciliation pass (`None` until
then). -/
structure Split where
  split_number : String
  split_distance : ℤ
  split_time : String
  split_pace : String
  rate : ℤ
  hr : Option ℤ := none
  actual_split_distance : Option ℤ := none
deriving Repr, DecidableEq

/-- `Split.set_actual_split_distance`. -/
def Split.set_actual_split_distance (s : Split) (d : ℤ) : Split :=
  { s with actual_split_distance := some d }

/-- The `Split.watts` computed field: use the actual split distance if it
has been set, otherwise fall back to assuming 500 m. -/
def Split.watts (s : Split) : Option ℚ :=
  calculate_watts s.split_pace (s.actual_split_distance.getD 500)

/-- The loop body of `ErgData._calculate_actual_split_distances`: walk the
splits keeping the previous cumulative distance (initially 0), setting
each actual distance to cumulative minus previous. -/
def reconcileSplits (prev_distance : ℤ) : List Split → List Split
  | [] => []
  | s :: rest =>
    s.set_actual_split_distance (s.split_distance - prev_distance) ::
      reconcileSplits s.split_distance rest

/-- `ErgData._calculate_actual_split_distances` (also the identical method
of `ReceiptDetails`), restricted to its distance-reconciliation effect. -/
def calculate_actual_split_distances (splits : List Split) : List Split :=
  reconcileSplits 0 splits

/-- `ErgData._calculate_average_watts`: collect the non-`None` watts of
all splits; if any exist, overwrite `summary.average_watts` with their
rounded mean, otherwise leave the field untouched. -/
def calculate_average_watts (splits : List Split) (average_watts : Option ℚ) :
    Option ℚ :=
  let watts_values := splits.filterMap Split.watts
  if watts_values.isEmpty then average_watts
  else some (pyRound1 (watts_values.sum / (watts_values.length : ℚ)))

/-- `ErgData` from `erg_screen_reader/models.py`. -/
structure ErgData where
  summary : Summary
  splits : List Split
deriving Repr, DecidableEq

/-- `ErgData.model_post_init`: reconcile the split distances, then compute
the average watts from the reconciled splits. -/
def ErgData.postInit (d : ErgData) : ErgData :=
  { summary :=
      { d.summary with
        average_watts :=
          calculate_average_watts (calculate_actual_split_distances d.splits)
            d.summary.average_watts },
    splits := calculate_actual_split_distances d.splits }

/-- `Interval` from `erg_screen_reader/models.py`. -/
structure Interval where
  interval_number : String
  interval_distance : ℤ
  interval_time : String
  interval_pace : String
  rate : ℤ
  hr : Option ℤ := none
  rest_time : Option String := none
  actual_interval_distance : Option ℤ := none
deriving Repr, DecidableEq

/-- `Interval.set_actual_interval_distance`. -/
def Interval.set_actual_interval_distance (iv : Interval) (d : ℤ) : Interval :=
  { iv with actual_interval_distance := some d }

/-- The `Interval.watts` computed field: use the actual interval distance
if it has been set, otherwise fall back to the stored (cumulative)
`interval_distance`. -/
def Interval.watts (iv : Interval) : Option ℚ :=
  calculate_watts iv.interval_pace (iv.actual_interval_distance.getD iv.interval_distance)

/-- The loop body of `IntervalWorkoutData._calculate_actual_interval_distances`. -/
def reconcileIntervals (prev_distance : ℤ) : List Interval → List Interval
  | [] => []
  | iv :: rest =>
    iv.set_actual_interval_distance (iv.interval_distance - prev_distance) ::
      reconcileIntervals iv.interval_distance rest

/-- `IntervalWorkoutData._calculate_actual_interval_distances`, restricted
to its distance-reconciliation effect. -/
def calculate_actual_interval_distances (intervals : List Interval) : List Interval :=
  reconcileIntervals 0 intervals

/-- The inner sliding pass of `FitAnalyzer.calculate_best_intervals`: the
pair list carries `(values[i - w], values[i])` for `i = w, …, n-1`; each
step slides the window sum and keeps the running maximum. -/
def slideMax : List (ℚ × ℚ) → ℚ → ℚ → ℚ
  | [], _, max_avg => max_avg
  | (vOut, vIn) :: rest, window_sum, max_avg =>
    let next := window_sum - vOut + vIn
    slideMax rest next (max max_avg next)

/-- One window length of `FitAnalyzer.calculate_best_intervals`: the sum
of the first `w` values, slid across the series, keeping the maximum. -/
def bestWindowSum (w : ℕ) (values : List ℚ) : ℚ :=
  let window_sum := (values.take w).sum
  slideMax (values.zip (values.drop w)) window_sum window_sum

/-- `FitAnalyzer.calculate_best_intervals` from `src/fit_analyzer.py`:
for each requested window length that fits in the series, record the best
sliding-window sum divided by the window length; shorter series skip the
length entirely.  The result dictionary is embedded as an association
list in insertion order. -/
def calculate_best_intervals (values : List ℚ) (intervals : List ℕ) :
    List (ℕ × ℚ) :=
  intervals.filterMap (fun interval_sec =>
    if values.length < interval_sec then none
    else some (interval_sec, bestWindowSum interval_sec values / (interval_sec : ℚ)))

/-- Brute-force reference for the window aggregator, following the spec's
words: enumerate every contiguous window of length `w` (each sum recomputed
from scratch, O(n·w)), take the mean of each, and return the maximum, or
`none` when the series is shorter than `w`. -/
def bruteForceBestAverage (w : ℕ) (values : List ℚ) : Option ℚ :=
  ((List.range (values.length + 1 - w)).map
    (fun i => ((values.drop i).take w).sum / (w : ℚ))).max?

/-- All contiguous window sums of length `w`, each recomputed from
scratch: the stepping stone between the sliding implementation and the
brute-force reference. -/
def windowSums (w : ℕ) : List ℚ → List ℚ
  | [] => []
  | x :: rest =>
    if w ≤ (x :: rest).length then ((x :: rest).take w).sum :: windowSums w rest
    else []

/-- `highest_avg` from `src/Fit_csv_reader.py`, verbatim with its index
arithmetic: sum `value_list[1..n]`, then for `i` in `range(n+1, len)`
slide by subtracting `value_list[i - n + 1]` and adding `value_list[i]`.
A Python `IndexError` (index beyond the list) or `ZeroDivisionError`
(`n = 0`) is modelled as `none`. -/
def highest_avg (n : ℕ) (value_list : List ℚ) : Option ℚ := do
  let max_n ← (List.range' 1 n).foldlM
    (fun acc i => (value_list.get? i).map (fun v => acc + v)) (0 : ℚ)
  let st ← (List.range' (n + 1) (value_list.length - (n + 1))).foldlM
    (fun (st : ℚ × ℚ) i => do
      let vOut ← value_list.get? (i - n + 1)
      let vIn ← value_list.get? i
      let curr := st.1 - vOut + vIn
      pure (curr, max curr st.2)) (max_n, max_n)
  if n = 0 then none else some (st.2 / (n : ℚ))

/-- One iteration of the record loop in `FitAnalyzer._parse_fit_data`:
adopt the first record's field names as the headers, then keep a row only
when its length matches the headers'. -/
def parseStep {α : Type} (st : Option (List String) × List (List α))
    (rec : List (String × α)) : Option (List String) × List (List α) :=
  let data_names := rec.map Prod.fst
  let data_row := rec.map Prod.snd
  let headers := st.1.getD data_names
  (some headers, if data_row.length = headers.length then st.2 ++ [data_row] else st.2)

/-- `FitAnalyzer._parse_fit_data` from `src/fit_analyzer.py`: fold the raw
record sequence into the header list (taken from the first record) and the
list of retained rows. -/
def parse_fit_data {α : Type} (msgs : List (List (String × α))) :
    List String × List (List α) :=
  let st := msgs.foldl parseStep (none, [])
  (st.1.getD [], st.2)

/-- A concrete three-split workout whose middle split repeats the previous
cumulative distance (so its reconciled incremental distance is 0 and its
power is undefined): cumulative distances 500, 500, 1000, all at pace
"2:00". -/
def exampleThreeSplits : List Split :=
  [{ split_number := "1", split_distance := 500, split_time := "",
     split_pace := "2:00", rate := 0 },
   { split_number := "2", split_distance := 500, split_time := "",
     split_pace := "2:00", rate := 0 },
   { split_number := "3", split_distance := 1000, split_time := "",
     split_pace := "2:00", rate := 0 }]

/-- The three-split workout wrapped in an `ErgData` whose summary starts
with no average watts. -/
def exampleErgData : ErgData :=
  { summary := { total_distance := 1000, total_time := "", average_split := "",
                 average_rate := 0 },
    splits := exampleThreeSplits }

/-! ### Evaluation lemmas for the concrete strings used by the claims -/

lemma time_2_05_1 : time_to_seconds "2:05.1" = 1251 / 10 := by
  simp [time_to_seconds, timeToSecondsAux, containsChar, splitOnChar, removeChar,
    pyFloat, pyInt, digitsVal, digitVal, fracVal, List.foldlM, Option.bind]
  norm_num

lemma time_colon_48_2 : time_to_seconds ":48.2" = 0 := by
  simp [time_to_seconds, timeToSecondsAux, containsChar, splitOnChar, removeChar,
    pyFloat, pyInt, digitsVal, digitVal, fracVal, List.foldlM, Option.bind]

lemma time_1_34_6 : time_to_seconds "1:34.6" = 946 / 10 := by
  simp [time_to_seconds, timeToSecondsAux, containsChar, splitOnChar, removeChar,
    pyFloat, pyInt, digitsVal, digitVal, fracVal, List.foldlM, Option.bind]
  norm_num

lemma time_48_2 : time_to_seconds "48.2" = 482 / 10 := by
  simp [time_to_seconds, timeToSecondsAux, containsChar, splitOnChar, removeChar,
    pyFloat, pyInt, digitsVal, digitVal, fracVal, List.foldlM, Option.bind]
  norm_num

lemma time_2_00 : time_to_seconds "2:00" = 120 := by
  simp [time_to_seconds, timeToSecondsAux, containsChar, splitOnChar, removeChar,
    pyFloat, pyInt, digitsVal, digitVal, fracVal, List.foldlM, Option.bind]
  norm_num

lemma time_empty : time_to_seconds "" = 0 := by
  simp [time_to_seconds, timeToSecondsAux, containsChar, splitOnChar, removeChar,
    pyFloat, pyInt, digitsVal, digitVal, fracVal, List.foldlM, Option.bind]

lemma watts_2_00_500 : calculate_watts "2:00" 500 = some (405 / 2) := by
  simp [calculate_watts, time_to_seconds, timeToSecondsAux, containsChar, splitOnChar,
    removeChar, pyFloat, pyInt, digitsVal, digitVal, fracVal, List.foldlM, Option.bind,
    pyRound1, roundHalfEven]
  norm_num [Int.fract]

/-! ### Distance reconciliation (C2, C3) -/

lemma reconcileSplits_sum (l : List Split) (h : l ≠ []) : ∀ prev : ℤ,
    ((reconcileSplits prev l).map (fun s => s.actual_split_distance.getD 0)).sum
      = (l.getLast h).split_distance - prev := by
  induction l with
  | nil => exact absurd rfl h
  | cons s rest ih =>
    intro prev
    cases rest with
    | nil =>
      simp [reconcileSplits, Split.set_actual_split_distance, List.getLast]
    | cons t ts =>
      have hne : t :: ts ≠ [] := by simp
      rw [show reconcileSplits prev (s :: t :: ts)
            = s.set_actual_split_distance (s.split_distance - prev)
              :: reconcileSplits s.split_distance (t :: ts) from rfl,
        List.map_cons, List.sum_cons, ih hne s.split_distance, List.getLast_cons hne]
      simp only [Split.set_actual_split_distance, Option.getD_some]
      ring

lemma reconcileIntervals_sum (l : List Interval) (h : l ≠ []) : ∀ prev : ℤ,
    ((reconcileIntervals prev l).map (fun iv => iv.actual_interval_distance.getD 0)).sum
      = (l.getLast h).interval_distance - prev := by
  induction l with
  | nil => exact absurd rfl h
  | cons s rest ih =>
    intro prev
    cases rest with
    | nil =>
      simp [reconcileIntervals, Interval.set_actual_interval_distance, List.getLast]
    | cons t ts =>
      have hne : t :: ts ≠ [] := by simp
      rw [show reconcileIntervals prev (s :: t :: ts)
            = s.set_actual_interval_distance (s.interval_distance - prev)
              :: reconcileIntervals s.interval_distance (t :: ts) from rfl,
        List.map_cons, List.sum_cons, ih hne s.interval_distance, List.getLast_cons hne]
      simp only [Interval.set_actual_interval_distance, Option.getD_some]
      ring

/-- C2: for every non-empty segment list with non-decreasing cumulative
distances, the reconciliation pass (previous cumulative starting at 0,
incremental = cumulative − previous) assigns incremental distances summing
exactly to the last cumulative distance — for splits and for intervals. -/
theorem reconciled_distances_sum_to_last :
    (∀ (splits : List Split) (h : splits ≠ []),
      List.Chain' (· ≤ ·) (splits.map Split.split_distance) →
      ((calculate_actual_split_distances splits).map
          (fun s => s.actual_split_distance.getD 0)).sum
        = (splits.getLast h).split_distance)
    ∧ (∀ (intervals : List Interval) (h : intervals ≠ []),
      List.Chain' (· ≤ ·) (intervals.map Interval.interval_distance) →
      ((calculate_actual_interval_distances intervals).map
          (fun iv => iv.actual_interval_distance.getD 0)).sum
        = (intervals.getLast h).interval_distance) := by
  constructor
  · intro splits h _
    have := reconcileSplits_sum splits h 0
    simpa [calculate_actual_split_distances] using this
  · intro intervals h _
    have := reconcileIntervals_sum intervals h 0
    simpa [calculate_actual_interval_distances] using this

/-- C2 witness: splits with cumulative distances 100 ≤ 300 reconcile to
incremental distances 100 and 200, summing to 300; one interval with
cumulative distance 500 reconciles to 500. -/
theorem reconciled_distances_sum_to_last_witness :
    ((calculate_actual_split_distances
        [{ split_number := "1", split_distance := 100, split_time := "",
           split_pace := "", rate := 0 },
         { split_number := "2", split_distance := 300, split_time := "",
           split_pace := "", rate := 0 }]).map
        (fun s => s.actual_split_distance.getD 0)).sum = 300
    ∧ ((calculate_actual_interval_distances
        [{ interval_number := "1", interval_distance := 500, interval_time := "",
           interval_pace := "", rate := 0 }]).map
        (fun iv => iv.actual_interval_distance.getD 0)).sum = 500 := by
  constructor
  · exact reconciled_distances_sum_to_last.1 _ (by simp)
      (by simp [List.chain'_cons])
  · exact reconciled_distances_sum_to_last.2 _ (by simp)
      (by simp [List.chain'_cons])

/-- C3: on cumulative distances 100 then 50 the reconciler stores the
negative incremental distance −50 on the second split instead of flagging
it as invalid/absent. -/
theorem reconciler_stores_negative_increment :
    (calculate_actual_split_distances
        [{ split_number := "1", split_distance := 100, split_time := "",
           split_pace := "", rate := 0 },
         { split_number := "2", split_distance := 50, split_time := "",
           split_pace := "", rate := 0 }]).map
      (fun s => s.actual_split_distance) = [some 100, some (-50)] := by
  decide

/-! ### Time-string parsing (C4) -/

/-- C4 counterexample: the claim requires `":48.2"` to parse to 48.2
seconds, but the code reaches `int("")` on the empty minutes field, which
raises, and the catch-all returns the 0.0 fallback. -/
theorem time_to_seconds_colon_heads_to_zero :
    time_to_seconds ":48.2" = 0 ∧ (0 : ℚ) ≠ 482 / 10 := by
  exact ⟨time_colon_48_2, by norm_num⟩

/-- C4 amended: `"2:05.1"` parses to 125.1 s and `"1:34.6"` to 94.6 s, and
the seconds-only form `"48.2"` to 48.2 s, but the minutes-omitted form
`":48.2"` is unparseable to this implementation and takes the 0 fallback. -/
theorem time_to_seconds_examples :
    time_to_seconds "2:05.1" = 1251 / 10
    ∧ time_to_seconds "1:34.6" = 946 / 10
    ∧ time_to_seconds "48.2" = 482 / 10
    ∧ time_to_seconds ":48.2" = 0 := by
  exact ⟨time_2_05_1, time_1_34_6, time_48_2, time_colon_48_2⟩

/-! ### Power guards (C6) and the watts fallback distances (C10) -/

/-- C6: whenever the pace string is empty, the distance is non-positive,
or the parsed time is non-positive, `calculate_watts` yields `none` (the
embedding is total, so no exception can escape, and `none` is never a zero
that could be averaged in). -/
theorem calculate_watts_guards (pace_time : String) (distance : ℤ)
    (h : pace_time = "" ∨ distance ≤ 0 ∨ time_to_seconds pace_time ≤ 0) :
    calculate_watts pace_time distance = none := by
  unfold calculate_watts
  rcases h with h | h | h
  · rw [if_pos (Or.inl h)]
  · rw [if_pos (Or.inr h)]
  · by_cases hg : pace_time = "" ∨ distance ≤ 0
    · rw [if_pos hg]
    · rw [if_neg hg]
      simp only [if_pos h]

/-- C6 witness: the empty pace string, a zero distance, and an unparseable
pace string (parsed time 0) all yield `none`. -/
theorem calculate_watts_guards_witness :
    (("" : String) = "" ∨ (500 : ℤ) ≤ 0 ∨ time_to_seconds "" ≤ 0)
    ∧ calculate_watts "" 500 = none
    ∧ calculate_watts "2:00" 0 = none
    ∧ calculate_watts "abc" 500 = none := by
  refine ⟨Or.inl rfl, calculate_watts_guards "" 500 (Or.inl rfl),
    calculate_watts_guards "2:00" 0 (Or.inr (Or.inl le_rfl)),
    calculate_watts_guards "abc" 500 (Or.inr (Or.inr ?_))⟩
  simp [time_to_seconds, timeToSecondsAux, containsChar, splitOnChar, removeChar,
    pyFloat, pyInt, digitsVal, digitVal, fracVal, List.foldlM, Option.bind]

/-- C10: when the reconciliation pass has not set an actual distance, the
`watts` computed field still computes power, using 500 m as the fallback
distance for a `Split` and the stored cumulative distance for an
`Interval`. -/
theorem watts_fallback_distances :
    (∀ s : Split, s.actual_split_distance = none →
      s.watts = calculate_watts s.split_pace 500)
    ∧ (∀ iv : Interval, iv.actual_interval_distance = none →
      iv.watts = calculate_watts iv.interval_pace iv.interval_distance) := by
  constructor
  · intro s hs; simp [Split.watts, hs]
  · intro iv hiv; simp [Interval.watts, hiv]

/-- C10 witness: a split with pace "2:00" and no reconciled distance gets
watts from the 500 m fallback (202.5 W, not absent); an interval with
stored cumulative distance 500 and no reconciled distance likewise. -/
theorem watts_fallback_distances_witness :
    ({ split_number := "1", split_distance := 1000, split_time := "",
        split_pace := "2:00", rate := 0 } : Split).watts = some (405 / 2)
    ∧ ({ interval_number := "1", interval_distance := 500, interval_time := "",
          interval_pace := "2:00", rate := 0 } : Interval).watts = some (405 / 2) := by
  constructor
  · rw [watts_fallback_distances.1 _ rfl]; exact watts_2_00_500
  · rw [watts_fallback_distances.2 _ rfl]; exact watts_2_00_500

/-! ### The power formula (C5) -/

/-- C5: for every pace string whose parsed time is positive and every
positive distance, the estimated power is exactly
`2.80 / (time/distance)^3` watts rounded to one decimal place. -/
theorem calculate_watts_formula (pace_time : String) (distance : ℤ)
    (ht : 0 < time_to_seconds pace_time) (hd : 0 < distance) :
    calculate_watts pace_time distance
      = some (pyRound1
          ((2.8 : ℚ) / ((time_to_seconds pace_time) / (distance : ℚ)) ^ 3)) := by
  have hne : ¬(pace_time = "" ∨ distance ≤ 0) := by
    push_neg
    refine ⟨fun he => ?_, hd⟩
    rw [he, time_empty] at ht
    exact lt_irrefl 0 ht
  unfold calculate_watts
  rw [if_neg hne, if_neg (not_le.mpr ht)]

/-- C5 witness: pace "2:00" (120 s) over 500 m gives exactly 202.5 W,
which is within 0.1 of the specified 202.5. -/
theorem calculate_watts_formula_witness :
    0 < time_to_seconds "2:00" ∧ (0 : ℤ) < 500
    ∧ calculate_watts "2:00" 500
        = some (pyRound1 ((2.8 : ℚ) / ((time_to_seconds "2:00") / (500 : ℚ)) ^ 3))
    ∧ calculate_watts "2:00" 500 = some (405 / 2)
    ∧ |(405 / 2 : ℚ) - 2025 / 10| ≤ 1 / 10 := by
  have ht : 0 < time_to_seconds "2:00" := by rw [time_2_00]; norm_num
  exact ⟨ht, by norm_num,
    calculate_watts_formula "2:00" 500 ht (by norm_num),
    watts_2_00_500, by norm_num⟩

/-! ### Average power aggregation (C7) -/

/-- C7: after `ErgData` post-initialization, the summary's average watts
is the rounded arithmetic mean over exactly the reconciled splits whose
watts are defined (sum and divisor both range over the defined ones only);
when no split has defined watts the field keeps its prior value — in
particular an absent average stays absent, never zero. -/
theorem average_watts_over_defined (d : ErgData) (ws : List ℚ)
    (hws : ws = (calculate_actual_split_distances d.splits).filterMap Split.watts) :
    (ws ≠ [] → d.postInit.summary.average_watts
        = some (pyRound1 (ws.sum / (ws.length : ℚ))))
    ∧ (ws = [] → d.postInit.summary.average_watts = d.summary.average_watts) := by
  constructor
  · intro h
    show calculate_average_watts (calculate_actual_split_distances d.splits)
        d.summary.average_watts = _
    unfold calculate_average_watts
    rw [← hws, if_neg (by simpa [List.isEmpty_iff] using h)]
  · intro h
    show calculate_average_watts (calculate_actual_split_distances d.splits)
        d.summary.average_watts = _
    unfold calculate_average_watts
    rw [← hws, if_pos (by simpa [List.isEmpty_iff] using h)]

/-- C7 witness: in the three-split workout with one zero-increment split,
exactly 2 of the 3 splits have defined watts, and the average is taken
over those 2 (each 202.5 W, mean 202.5 W), not divided by 3. -/
theorem average_watts_over_defined_witness :
    ((calculate_actual_split_distances exampleThreeSplits).filterMap Split.watts)
      = [405 / 2, 405 / 2]
    ∧ exampleErgData.postInit.summary.average_watts = some (405 / 2)
    ∧ some ((405 : ℚ) / 2) ≠ some (pyRound1 ((405 / 2 + 405 / 2) / 3)) := by
  have hws : (calculate_actual_split_distances exampleThreeSplits).filterMap Split.watts
      = [405 / 2, 405 / 2] := by
    have h1 : calculate_actual_split_distances exampleThreeSplits
        = [{ split_number := "1", split_distance := 500, split_time := "",
             split_pace := "2:00", rate := 0, actual_split_distance := some 500 },
           { split_number := "2", split_distance := 500, split_time := "",
             split_pace := "2:00", rate := 0, actual_split_distance := some 0 },
           { split_number := "3", split_distance := 1000, split_time := "",
             split_pace := "2:00", rate := 0, actual_split_distance := some 500 }] := by
      simp [exampleThreeSplits, calculate_actual_split_distances, reconcileSplits,
        Split.set_actual_split_distance]
    rw [h1]
    simp only [List.filterMap]
    simp [Split.watts, watts_2_00_500,
      calculate_watts_guards "2:00" 0 (Or.inr (Or.inl le_rfl))]
  refine ⟨hws, ?_, ?_⟩
  · have h := (average_watts_over_defined exampleErgData
      ((calculate_actual_split_distances exampleErgData.splits).filterMap Split.watts)
      rfl).1 (by rw [show exampleErgData.splits = exampleThreeSplits from rfl, hws]; simp)
    rw [show exampleErgData.splits = exampleThreeSplits from rfl, hws] at h
    rw [h]
    simp [pyRound1, roundHalfEven]
    norm_num [Int.fract]
  · simp only [Ne, Option.some_inj]
    rw [show ((405 : ℚ) / 2 + 405 / 2) / 3 = 135 from by norm_num]
    simp [pyRound1, roundHalfEven]
    norm_num [Int.fract]

/-! ### Record ingestion (C9) -/

lemma parse_foldl {α : Type} (h : List String) :
    ∀ (msgs : List (List (String × α))) (acc : List (List α)),
    msgs.foldl parseStep (some h, acc)
      = (some h, acc ++ (msgs.map (fun r => r.map Prod.snd)).filter
          (fun row => row.length == h.length)) := by
  intro msgs
  induction msgs with
  | nil => intro acc; simp
  | cons m ms ih =>
    intro acc
    rw [List.foldl_cons,
      show parseStep (some h, acc) m
        = (some h, if (m.map Prod.snd).length = h.length
            then acc ++ [m.map Prod.snd] else acc) from rfl]
    by_cases hc : (m.map Prod.snd).length = h.length
    · rw [if_pos hc, ih]
      have hc' : m.length = h.length := by simpa using hc
      simp [List.filter_cons, hc']
    · rw [if_neg hc, ih]
      have hc' : ¬ m.length = h.length := by simpa using hc
      simp [List.filter_cons, hc']

/-- C9 amended: the ingestor takes the field names from the first sample
and never reshapes them afterwards, and a sample is retained exactly when
its field count equals the schema's; a later sample with a differing field
count is dropped entirely, not filled with absent values. -/
theorem parse_fit_data_schema {α : Type} (msgs : List (List (String × α))) :
    (parse_fit_data msgs).1 = (msgs.head?.map (fun r => r.map Prod.fst)).getD []
    ∧ (parse_fit_data msgs).2 = (msgs.map (fun r => r.map Prod.snd)).filter
        (fun row => row.length == (parse_fit_data msgs).1.length) := by
  cases msgs with
  | nil => exact ⟨rfl, rfl⟩
  | cons m ms =>
    have h0 : parseStep (α := α) (none, []) m
        = (some (m.map Prod.fst), [m.map Prod.snd]) := by
      show ((some (m.map Prod.fst) : Option (List String)),
        if (m.map Prod.snd).length = (m.map Prod.fst).length
          then ([] : List (List α)) ++ [m.map Prod.snd] else []) = _
      rw [if_pos (by simp)]
      simp
    have hfold : (m :: ms).foldl parseStep
        ((none : Option (List String)), ([] : List (List α)))
        = (some (m.map Prod.fst),
            [m.map Prod.snd] ++ (ms.map (fun r => r.map Prod.snd)).filter
              (fun row => row.length == (m.map Prod.fst).length)) := by
      rw [List.foldl_cons, h0, parse_foldl]
    constructor
    · show ((m :: ms).foldl parseStep (none, [])).1.getD [] = _
      rw [hfold]
      simp
    · show ((m :: ms).foldl parseStep (none, [])).2 = _
      rw [hfold]
      have hhd : (parse_fit_data (m :: ms)).1 = m.map Prod.fst := by
        show ((m :: ms).foldl parseStep (none, [])).1.getD [] = _
        rw [hfold]
        simp
      rw [hhd]
      simp [List.filter_cons]

/-! ### The window aggregator refines the brute force reference (C1, C8) -/

lemma windowSums_of_lt (w : ℕ) {l : List ℚ} (h : l.length < w) :
    windowSums w l = [] := by
  cases l with
  | nil => rfl
  | cons x rest =>
    simp only [windowSums, if_neg (by omega : ¬ w ≤ (x :: rest).length)]

lemma windowSums_cons_of_le {w : ℕ} {x : ℚ} {rest : List ℚ}
    (h : w ≤ (x :: rest).length) :
    windowSums w (x :: rest) = ((x :: rest).take w).sum :: windowSums w rest := by
  simp only [windowSums, if_pos h]

lemma windowSums_eq_range (w : ℕ) (hw : 1 ≤ w) : ∀ (l : List ℚ), w ≤ l.length →
    windowSums w l
      = (List.range (l.length + 1 - w)).map (fun i => ((l.drop i).take w).sum) := by
  intro l
  induction l with
  | nil => intro h; simp at h; omega
  | cons x rest ih =>
    intro h
    rw [windowSums_cons_of_le h]
    by_cases h2 : w ≤ rest.length
    · rw [ih h2]
      have hlen : (x :: rest).length + 1 - w = (rest.length + 1 - w) + 1 := by
        simp only [List.length_cons]; omega
      rw [hlen, List.range_succ_eq_map, List.map_cons, List.map_map]
      congr 1
    · have hw2 : rest.length < w := by omega
      rw [windowSums_of_lt w hw2]
      have hone : (x :: rest).length + 1 - w = 1 := by
        simp only [List.length_cons] at h ⊢; omega
      rw [hone]
      simp [List.range_succ]

lemma slideMax_eq_foldl (w : ℕ) (hw : 1 ≤ w) : ∀ (l : List ℚ), w ≤ l.length →
    ∀ b : ℚ, slideMax (l.zip (l.drop w)) ((l.take w).sum) b
      = (windowSums w l).tail.foldl max b := by
  intro l
  induction l with
  | nil => intro h; simp at h; omega
  | cons x rest ih =>
    intro h b
    by_cases h2 : w ≤ rest.length
    · obtain ⟨k, rfl⟩ : ∃ k, w = k + 1 := ⟨w - 1, by omega⟩
      have hk : k < rest.length := by omega
      have hdrop : (x :: rest).drop (k + 1) = rest[k] :: rest.drop (k + 1) := by
        show rest.drop k = _
        exact List.drop_eq_getElem_cons hk
      rw [hdrop, List.zip_cons_cons]
      simp only [slideMax]
      have hS : ((x :: rest).take (k + 1)).sum - x + rest[k]
          = (rest.take (k + 1)).sum := by
        have e1 : (x :: rest).take (k + 1) = x :: rest.take k :=
          List.take_succ_cons
        have e2 : rest.take (k + 1) = rest.take k ++ [rest[k]] := by
          rw [List.take_succ, List.getElem?_eq_getElem hk]
          rfl
        rw [e1, e2, List.sum_cons, List.sum_append, List.sum_cons, List.sum_nil]
        ring
      rw [hS, ih h2 (max b ((rest.take (k + 1)).sum)),
        windowSums_cons_of_le h, List.tail_cons]
      cases rest with
      | nil => simp at hk
      | cons y ys =>
        rw [windowSums_cons_of_le h2, List.tail_cons, List.foldl_cons]
    · have hnil : (x :: rest).drop w = [] :=
        List.drop_eq_nil_of_le (by simp only [List.length_cons]; omega)
      rw [hnil, List.zip_nil_right]
      simp only [slideMax]
      rw [windowSums_cons_of_le h, List.tail_cons,
        windowSums_of_lt w (by omega : rest.length < w)]
      rfl

lemma windowSums_max (w : ℕ) (hw : 1 ≤ w) (l : List ℚ) (h : w ≤ l.length) :
    (windowSums w l).max? = some (bestWindowSum w l) := by
  cases l with
  | nil => simp at h; omega
  | cons x rest =>
    rw [windowSums_cons_of_le h, List.max?_cons']
    show _ = some (slideMax ((x :: rest).zip ((x :: rest).drop w))
      (((x :: rest).take w).sum) (((x :: rest).take w).sum))
    rw [slideMax_eq_foldl w hw (x :: rest) h, windowSums_cons_of_le h,
      List.tail_cons]

lemma foldl_max_div (c : ℚ) (hc : 0 ≤ c) : ∀ (t : List ℚ) (a : ℚ),
    (t.map (fun q => q / c)).foldl max (a / c) = (t.foldl max a) / c := by
  intro t
  induction t with
  | nil => intro a; rfl
  | cons b t' ih =>
    intro a
    simp only [List.map_cons, List.foldl_cons]
    rw [max_div_div_right hc, ih]

lemma max?_map_div (c : ℚ) (hc : 0 ≤ c) (s : List ℚ) :
    (s.map (fun q => q / c)).max? = s.max?.map (fun q => q / c) := by
  cases s with
  | nil => rfl
  | cons a t =>
    rw [List.map_cons, List.max?_cons', List.max?_cons', Option.map_some',
      foldl_max_div c hc]

lemma brute_eq_sliding (w : ℕ) (hw : 1 ≤ w) (l : List ℚ) (h : w ≤ l.length) :
    bruteForceBestAverage w l = some (bestWindowSum w l / (w : ℚ)) := by
  unfold bruteForceBestAverage
  have hmap : (List.range (l.length + 1 - w)).map
        (fun i => ((l.drop i).take w).sum / (w : ℚ))
      = (windowSums w l).map (fun q => q / (w : ℚ)) := by
    rw [windowSums_eq_range w hw l h, List.map_map]
    rfl
  rw [hmap, max?_map_div (w : ℚ) (by positivity), windowSums_max w hw l h,
    Option.map_some']

lemma lookup_calculate_best (values : List ℚ) : ∀ (intervals : List ℕ) (w : ℕ),
    w ∈ intervals → w ≤ values.length →
    List.lookup w (calculate_best_intervals values intervals)
      = some (bestWindowSum w values / (w : ℚ)) := by
  intro intervals
  induction intervals with
  | nil => intro w hmem _; exact absurd hmem (List.not_mem_nil w)
  | cons i rest ih =>
    intro w hmem hlen
    unfold calculate_best_intervals
    rw [List.filterMap_cons]
    by_cases hi : values.length < i
    · simp only [if_pos hi]
      rcases List.mem_cons.mp hmem with rfl | hmem2
      · omega
      · exact ih w hmem2 hlen
    · simp only [if_neg hi]
      by_cases hwi : w = i
      · subst hwi
        simp [List.lookup]
      · have hne : (w == i) = false := by simp [hwi]
        rcases List.mem_cons.mp hmem with rfl | hmem2
        · exact absurd rfl hwi
        · simp only [List.lookup, hne]
          exact ih w hmem2 hlen

/-- C1: for every metric series and every requested window length `w` with
`1 ≤ w ≤ length`, the O(n) sliding-window entry for `w` in
`calculate_best_intervals` equals the brute-force O(n·w) maximum, over all
contiguous windows of length `w`, of the window's arithmetic mean. -/
theorem best_intervals_match_bruteforce (values : List ℚ) (intervals : List ℕ)
    (w : ℕ) (hmem : w ∈ intervals) (hw : 1 ≤ w) (hlen : w ≤ values.length) :
    List.lookup w (calculate_best_intervals values intervals)
      = bruteForceBestAverage w values := by
  rw [lookup_calculate_best values intervals w hmem hlen,
    brute_eq_sliding w hw values hlen]

/-- C1 witness: on the series [10, 20, 30, 5, 25] with window length 2,
both the sliding implementation and the brute-force reference give best
average 25 (window [20, 30]). -/
theorem best_intervals_match_bruteforce_witness :
    List.lookup 2 (calculate_best_intervals [10, 20, 30, 5, 25] [2])
      = bruteForceBestAverage 2 [10, 20, 30, 5, 25]
    ∧ List.lookup 2 (calculate_best_intervals [10, 20, 30, 5, 25] [2]) = some 25
    ∧ bruteForceBestAverage 2 [10, 20, 30, 5, 25] = some 25 := by
  refine ⟨best_intervals_match_bruteforce [10, 20, 30, 5, 25] [2] 2
    (by simp) (by norm_num) (by simp), ?_, ?_⟩
  · simp [calculate_best_intervals, bestWindowSum, slideMax, List.lookup]
    norm_num [max_def]
  · simp [bruteForceBestAverage, List.range_succ]
    norm_num [max_def, List.max?]

/-- C8: `highest_avg` does not compute the sliding-window best average: on
the series [100, 1, 1] with window length 2 it returns 1.0 (it sums the
values at indices 1..2, skipping index 0, and mis-slides by `i - n + 1`),
while the specified algorithm — as implemented by
`calculate_best_intervals` and by the brute-force reference — gives
50.5. -/
theorem highest_avg_diverges_from_best_intervals :
    highest_avg 2 [100, 1, 1] = some 1
    ∧ List.lookup 2 (calculate_best_intervals [100, 1, 1] [2]) = some (101 / 2)
    ∧ bruteForceBestAverage 2 [100, 1, 1] = some (101 / 2)
    ∧ (1 : ℚ) ≠ 101 / 2 := by
  refine ⟨?_, ?_, ?_, by norm_num⟩
  · simp [highest_avg, List.foldlM, List.range']
  · simp [calculate_best_intervals, bestWindowSum, slideMax, List.lookup]
    norm_num [max_def]
  · simp [bruteForceBestAverage, List.range_succ]
    norm_num [max_def, List.max?]

/-- C9 counterexample: with a first sample carrying fields a, b and a
second sample carrying only field a, the second sample is dropped from the
output (one retained row, not two), contradicting the claim that it would
be ingested with its missing fields absent. -/
theorem parse_fit_data_drops_mismatched_sample :
    parse_fit_data [[("a", (1 : ℤ)), ("b", 2)], [("a", 3)]] = (["a", "b"], [[1, 2]])
    ∧ (parse_fit_data [[("a", (1 : ℤ)), ("b", 2)], [("a", 3)]]).2.length ≠ 2 := by
  constructor
  · simp [parse_fit_data, parseStep]
  · simp [parse_fit_data, parseStep]

end ErgScreenReader
